import Mathlib

/-!
Verification of the package sorting system (`packageSorting.js`,
`packageSortingConfig.js`).

Shallow embedding conventions:
* JavaScript numbers are modelled as rationals (`ℚ`); the values appearing in
  the program (thresholds 150, 1000000, 20, priorities 0..3, 0.5, 1.2, masses
  such as 19.999) are all exactly representable, and the comparisons and the
  single product `width * height * length` used by the code behave identically.
  Non-finite numbers (NaN, Infinity), which matter only for priority
  validation, are modelled explicitly by `JNum`.
* A rule condition is a function `rho -> Except String Bool`: `.ok b` models a
  normal Boolean return (conditions return Booleans by contract), `.error msg`
  models a thrown error carrying `msg` as its message.
* Untyped JavaScript values reaching the validation code paths are modelled by
  `JVal` (string / number / function / anything else) and `Option` for absent
  properties; the rule-list argument of the constructor by `RawRules`
  (array or not-an-array); the record argument of `evaluate` by `JSRecord`
  (object or not-an-object).
* Thrown engine errors are modelled as values of `EngineError`; the
  constructor used records which error kind the throw site corresponds to
  (ConfigError / InputError / RuleExecutionError / NoMatchError), and the
  payload is the exact message string built by the code.
* Mutating methods (`addRule`, `removeRule`, and for uniformity `evaluate`)
  are modelled by explicit state passing: they return the pair of the
  `Except` outcome and the engine state after the call.
* `Array.prototype.sort` with comparator `(a, b) => a.priority - b.priority`
  is a stable sort by priority (stability is required by the ECMAScript
  specification); it is modelled by the stable insertion sort `sortRules`,
  whose sortedness and stability are proved below.
-/

/-- Volume threshold in cubic centimeters (`VOLUME_THRESHOLD = 1000000`). -/
def VOLUME_THRESHOLD : ℚ := 1000000

/-- Dimension threshold in centimeters (`DIMENSION_THRESHOLD = 150`). -/
def DIMENSION_THRESHOLD : ℚ := 150

/-- Mass threshold in kilograms (`MASS_THRESHOLD = 20`). -/
def MASS_THRESHOLD : ℚ := 20

/-- Stack name constant `STANDARD`. -/
def STANDARD : String := "STANDARD"

/-- Stack name constant `SPECIAL`. -/
def SPECIAL : String := "SPECIAL"

/-- Stack name constant `REJECTED`. -/
def REJECTED : String := "REJECTED"

/-- Priority constant `PRIORITY_HIGH = 1`. -/
def PRIORITY_HIGH : ℚ := 1

/-- Priority constant `PRIORITY_MEDIUM = 2`. -/
def PRIORITY_MEDIUM : ℚ := 2

/-- Priority constant `PRIORITY_LOW = 3`. -/
def PRIORITY_LOW : ℚ := 3

/-- `isBulky(width, height, length)`: dimension check first (any dimension
`>= DIMENSION_THRESHOLD` returns `true`), then the volume check
(`width * height * length >= VOLUME_THRESHOLD`), else `false`. -/
def isBulky (width height length : ℚ) : Bool :=
  if DIMENSION_THRESHOLD ≤ width ∨ DIMENSION_THRESHOLD ≤ height ∨
      DIMENSION_THRESHOLD ≤ length then
    true
  else
    let volume := width * height * length
    if VOLUME_THRESHOLD ≤ volume then true else false

/-- `isHeavy(mass)`: `mass >= MASS_THRESHOLD`. -/
def isHeavy (mass : ℚ) : Bool :=
  decide (MASS_THRESHOLD ≤ mass)

/-- `sort(width, height, length, mass)`: the direct decision-matrix version.
Computes `bulky` and `heavy`, then both gives `REJECTED`, one gives
`SPECIAL`, neither gives `STANDARD`. -/
def sort (width height length mass : ℚ) : String :=
  let bulky := isBulky width height length
  let heavy := isHeavy mass
  if bulky && heavy then REJECTED
  else if bulky || heavy then SPECIAL
  else STANDARD

/-- Models the JavaScript test `s.trim() === ""`: true exactly when every
character of `s` is whitespace (so trimming leaves the empty string). -/
def isBlank (s : String) : Bool :=
  s.data.all (fun c => c.isWhitespace)

/-- A JavaScript number as seen by priority validation: a finite value
(modelled exactly as a rational) or one of the non-finite values. -/
inductive JNum where
  | fin (q : ℚ)
  | nan
  | posInf
  | negInf
deriving DecidableEq

/-- An untyped JavaScript value in a rule property slot: a string, a number,
a function (a condition over records of type `ρ`), or any other value
(null, Boolean, object, ...), none of which passes any of the `typeof`
checks in `_validateRule`. -/
inductive JVal (ρ : Type) where
  | vStr (s : String)
  | vNum (n : JNum)
  | vFun (f : ρ → Except String Bool)
  | vOther

/-- A raw rule argument: either not an object at all, or an object whose
four relevant properties are each absent (`none`) or present with some
JavaScript value. -/
inductive RawRule (ρ : Type) where
  | notObj
  | obj (name cond result priority : Option (JVal ρ))

/-- The raw `rules` argument of the constructor: an array of raw rules, or
not an array. -/
inductive RawRules (ρ : Type) where
  | notArray
  | arr (l : List (RawRule ρ))

/-- The raw record argument of `evaluate`: a structured object carrying a
record of type `ρ`, or a non-object value (null, undefined, primitive). -/
inductive JSRecord (ρ : Type) where
  | notObj
  | obj (r : ρ)

/-- A validated rule as stored by the engine: `name`, `condition`, `result`,
`priority`. -/
structure Rule (ρ : Type) where
  name : String
  condition : ρ → Except String Bool
  result : String
  priority : ℚ

/-- The error kinds thrown by the engine, each carrying the exact message
string built at the corresponding throw site. -/
inductive EngineError where
  | configError (msg : String)
  | inputError (msg : String)
  | ruleExecutionError (msg : String)
  | noMatchError (msg : String)
deriving DecidableEq

/-- `_validateRule(rule)`: object check, the four `prop in rule` checks in
order (name, condition, result, priority), then the typed checks in the same
order, returning the validated rule. -/
def validateRule {ρ : Type} : RawRule ρ → Except EngineError (Rule ρ)
  | .notObj => .error (.configError "Rule must be an object")
  | .obj name cond result priority =>
    match name, cond, result, priority with
    | none, _, _, _ =>
      .error (.configError "Rule is missing required property: name")
    | some _, none, _, _ =>
      .error (.configError "Rule is missing required property: condition")
    | some _, some _, none, _ =>
      .error (.configError "Rule is missing required property: result")
    | some _, some _, some _, none =>
      .error (.configError "Rule is missing required property: priority")
    | some nv, some cv, some rv, some pv =>
      match nv with
      | .vStr nm =>
        if isBlank nm then
          .error (.configError "Rule name must be a non-empty string")
        else
          match cv with
          | .vFun f =>
            match rv with
            | .vStr res =>
              if isBlank res then
                .error (.configError "Rule result must be a non-empty string")
              else
                match pv with
                | .vNum (.fin q) =>
                  if q < 0 then
                    .error
                      (.configError "Rule priority must be a non-negative number")
                  else
                    .ok ⟨nm, f, res, q⟩
                | _ =>
                  .error
                    (.configError "Rule priority must be a non-negative number")
            | _ =>
              .error (.configError "Rule result must be a non-empty string")
          | _ =>
            .error (.configError "Rule condition must be a function")
      | _ =>
        .error (.configError "Rule name must be a non-empty string")

/-- `rules.map(rule => this._validateRule(rule))` inside the constructor:
validates the elements left to right, the first thrown validation error
aborting the whole map. -/
def validateAll {ρ : Type} : List (RawRule ρ) → Except EngineError (List (Rule ρ))
  | [] => .ok []
  | r :: rs => do
    let v ← validateRule r
    let vs ← validateAll rs
    return v :: vs

/-- Insert a rule into a list, before the first element whose priority is
greater than or equal to its own. `sortRules` below uses this to realize a
stable sort by ascending priority. -/
def insertRule {ρ : Type} (x : Rule ρ) : List (Rule ρ) → List (Rule ρ)
  | [] => [x]
  | y :: ys =>
    if x.priority ≤ y.priority then x :: y :: ys
    else y :: insertRule x ys

/-- Stable insertion sort by ascending priority; models
`rules.sort((a, b) => a.priority - b.priority)` (stable per the ECMAScript
specification). Sortedness and stability are proved below. -/
def sortRules {ρ : Type} : List (Rule ρ) → List (Rule ρ)
  | [] => []
  | x :: xs => insertRule x (sortRules xs)

/-- The engine state: the `rules` array of validated rules. -/
structure RuleEngine (ρ : Type) where
  rules : List (Rule ρ)

/-- `new RuleEngine(rules)`: array check, emptiness check, validation of each
element in order (first failure aborts), then the stable sort by priority. -/
def RuleEngine.construct {ρ : Type} :
    RawRules ρ → Except EngineError (RuleEngine ρ)
  | .notArray => .error (.configError "Rules must be an array")
  | .arr l =>
    if l.isEmpty then .error (.configError "Rules array cannot be empty")
    else do
      let vs ← validateAll l
      return ⟨sortRules vs⟩

/-- The scan inside `evaluate`: first rule whose condition returns `true`
wins; a throwing condition aborts with a `RuleExecutionError` wrapping rule
name and underlying message; an exhausted list is a `NoMatchError`. -/
def evalRules {ρ : Type} (record : ρ) : List (Rule ρ) → Except EngineError String
  | [] => .error (.noMatchError "No matching rule found for package data")
  | r :: rs =>
    match r.condition record with
    | .error msg =>
      .error (.ruleExecutionError
        ("Error evaluating rule \"" ++ r.name ++ "\": " ++ msg))
    | .ok b => if b then .ok r.result else evalRules record rs

/-- `evaluate(packageData)`: object check, then the first-match scan of the
stored rules. The method contains no assignment to `this.rules`, so the
state-passing translation returns the engine unchanged. -/
def RuleEngine.evaluate {ρ : Type} (e : RuleEngine ρ) (input : JSRecord ρ) :
    Except EngineError String × RuleEngine ρ :=
  match input with
  | .notObj => (.error (.inputError "Package data must be an object"), e)
  | .obj r => (evalRules r e.rules, e)

/-- `addRule(rule)`: validate, reject a duplicate name among the stored
rules, otherwise push and re-sort (stable) by priority. -/
def RuleEngine.addRule {ρ : Type} (e : RuleEngine ρ) (raw : RawRule ρ) :
    Except EngineError Unit × RuleEngine ρ :=
  match validateRule raw with
  | .error err => (.error err, e)
  | .ok v =>
    if e.rules.any (fun r => r.name == v.name) then
      (.error (.configError
        ("Rule with name \"" ++ v.name ++ "\" already exists")), e)
    else
      (.ok (), ⟨sortRules (e.rules ++ [v])⟩)

/-- `removeRule(ruleName)`: name check, then `this.rules` is reassigned to
the filtered array before the length comparison that detects a missing name
(so on the not-found path the state is the filtered — unchanged — list). -/
def RuleEngine.removeRule {ρ : Type} (e : RuleEngine ρ) (nm : JVal ρ) :
    Except EngineError Unit × RuleEngine ρ :=
  match nm with
  | .vStr s =>
    if isBlank s then
      (.error (.configError "Rule name must be a non-empty string"), e)
    else
      let filtered := e.rules.filter (fun r => r.name != s)
      if filtered.length = e.rules.length then
        (.error (.configError ("Rule with name \"" ++ s ++ "\" not found")),
          ⟨filtered⟩)
      else
        (.ok (), ⟨filtered⟩)
  | _ => (.error (.configError "Rule name must be a non-empty string"), e)

/-- `CLASSIFICATION_RULES` evaluate records carrying the precomputed `bulky`
and `heavy` flags alongside the package attributes; this is the `PackageData`
shape used throughout the tests and by `sort`. -/
structure PackageData where
  width : ℚ
  height : ℚ
  length : ℚ
  mass : ℚ
  bulky : Bool
  heavy : Bool

/-- The default `CLASSIFICATION_RULES` array from `packageSortingConfig.js`,
as the raw constructor argument. -/
def classificationRules : List (RawRule PackageData) :=
  [ .obj (some (.vStr "rejected-packages"))
      (some (.vFun fun p => .ok (p.bulky && p.heavy)))
      (some (.vStr REJECTED))
      (some (.vNum (.fin PRIORITY_HIGH))),
    .obj (some (.vStr "special-packages"))
      (some (.vFun fun p => .ok (p.bulky || p.heavy)))
      (some (.vStr SPECIAL))
      (some (.vNum (.fin PRIORITY_MEDIUM))),
    .obj (some (.vStr "standard-packages"))
      (some (.vFun fun _ => .ok true))
      (some (.vStr STANDARD))
      (some (.vNum (.fin PRIORITY_LOW))) ]

/-- The validated rule `rejected-packages`. -/
def rejectedRule : Rule PackageData :=
  ⟨"rejected-packages", fun p => .ok (p.bulky && p.heavy), REJECTED,
    PRIORITY_HIGH⟩

/-- The validated rule `special-packages`. -/
def specialRule : Rule PackageData :=
  ⟨"special-packages", fun p => .ok (p.bulky || p.heavy), SPECIAL,
    PRIORITY_MEDIUM⟩

/-- The validated rule `standard-packages`. -/
def standardRule : Rule PackageData :=
  ⟨"standard-packages", fun _ => .ok true, STANDARD, PRIORITY_LOW⟩

/-- The engine state produced by `new RuleEngine(CLASSIFICATION_RULES)`. -/
def defaultEngine : RuleEngine PackageData :=
  ⟨[rejectedRule, specialRule, standardRule]⟩

example :
    RuleEngine.construct (.arr classificationRules) = .ok defaultEngine := rfl

/-- The validity contract established by `_validateRule` for a stored rule:
non-blank name, non-blank result, non-negative (finite) priority. -/
def validRule {ρ : Type} (r : Rule ρ) : Prop :=
  isBlank r.name = false ∧ isBlank r.result = false ∧ 0 ≤ r.priority

/-- The stored rule list is sorted by ascending priority. -/
def sortedByPriority {ρ : Type} (l : List (Rule ρ)) : Prop :=
  l.Pairwise (fun a b => a.priority ≤ b.priority)

/-- A record with no special attributes (mirrors `testPackageData` in the
test suite: 100 x 100 x 100 cm, 15 kg, neither bulky nor heavy). -/
def pdStandard : PackageData := ⟨100, 100, 100, 15, false, false⟩

/-- Raw rule `rule-1` of the equal-priority tie test: always-true condition,
result `FIRST`, priority 1. -/
def tieRuleARaw : RawRule PackageData :=
  .obj (some (.vStr "rule-1")) (some (.vFun fun _ => .ok true))
    (some (.vStr "FIRST")) (some (.vNum (.fin 1)))

/-- Raw rule `rule-2` of the equal-priority tie test: always-true condition,
result `SECOND`, priority 1. -/
def tieRuleBRaw : RawRule PackageData :=
  .obj (some (.vStr "rule-2")) (some (.vFun fun _ => .ok true))
    (some (.vStr "SECOND")) (some (.vNum (.fin 1)))

/-- A rule whose condition always throws `Condition error` (mirrors
`error-rule` in the test suite). -/
def errRule : Rule PackageData :=
  ⟨"error-rule", fun _ => .error "Condition error", "ERROR", 1⟩

/-- A rule whose condition always returns `false` (mirrors `never-match`). -/
def neverRule : Rule PackageData :=
  ⟨"never-match", fun _ => .ok false, "NEVER", 1⟩

/-- Raw always-true rule `express-packages` with priority 0, the highest
possible (mirrors the priority-0 `addRule` examples). -/
def expressRaw : RawRule PackageData :=
  .obj (some (.vStr "express-packages")) (some (.vFun fun _ => .ok true))
    (some (.vStr "EXPRESS")) (some (.vNum (.fin 0)))

/-- A raw rule reusing the stored name `rejected-packages`, for duplicate
detection in `addRule`. -/
def dupRejectRaw : RawRule PackageData :=
  .obj (some (.vStr "rejected-packages")) (some (.vFun fun _ => .ok true))
    (some (.vStr "DUPLICATE")) (some (.vNum (.fin 5)))

/-- Raw single always-true rule `only-rule`. -/
def onlyRuleRaw : RawRule PackageData :=
  .obj (some (.vStr "only-rule")) (some (.vFun fun _ => .ok true))
    (some (.vStr "ONLY")) (some (.vNum (.fin 1)))

/-- The validated `only-rule`. -/
def onlyRule : Rule PackageData :=
  ⟨"only-rule", fun _ => .ok true, "ONLY", 1⟩

/-- The engine constructed from `[onlyRuleRaw]` alone. -/
def singletonEngine : RuleEngine PackageData := ⟨[onlyRule]⟩

/-- The engine state after removing the only rule of `singletonEngine`. -/
def emptiedEngine : RuleEngine PackageData :=
  (singletonEngine.removeRule (.vStr "only-rule")).snd

/-- First raw rule named `test` (mirrors the duplicate-name construction
example in the usage documentation). -/
def dupARaw : RawRule PackageData :=
  .obj (some (.vStr "test")) (some (.vFun fun _ => .ok true))
    (some (.vStr "A")) (some (.vNum (.fin 1)))

/-- Second raw rule, also named `test`. -/
def dupBRaw : RawRule PackageData :=
  .obj (some (.vStr "test")) (some (.vFun fun _ => .ok false))
    (some (.vStr "B")) (some (.vNum (.fin 2)))

/-- The engine state produced by constructing from `[dupARaw, dupBRaw]`:
two stored rules share the name `test`. -/
def dupEngine : RuleEngine PackageData :=
  ⟨[⟨"test", fun _ => .ok true, "A", 1⟩, ⟨"test", fun _ => .ok false, "B", 2⟩]⟩

/-- Engine states reachable from a successful construction by any sequence
of successful `addRule` and `removeRule` calls. -/
inductive Reachable {ρ : Type} : RuleEngine ρ → Prop where
  | constructed (input : RawRules ρ) (e : RuleEngine ρ)
      (h : RuleEngine.construct input = .ok e) : Reachable e
  | added (e : RuleEngine ρ) (raw : RawRule ρ) (h1 : Reachable e)
      (h2 : (e.addRule raw).fst = .ok ()) : Reachable (e.addRule raw).snd
  | removed (e : RuleEngine ρ) (nm : JVal ρ) (h1 : Reachable e)
      (h2 : (e.removeRule nm).fst = .ok ()) : Reachable (e.removeRule nm).snd

theorem validateRule_valid {ρ : Type} {raw : RawRule ρ} {r : Rule ρ}
    (h : validateRule raw = .ok r) : validRule r := by
  cases raw with
  | notObj => simp [validateRule] at h
  | obj n c res p =>
    rcases n with _ | nv
    · simp [validateRule] at h
    rcases c with _ | cv
    · simp [validateRule] at h
    rcases res with _ | rv
    · simp [validateRule] at h
    rcases p with _ | pv
    · simp [validateRule] at h
    simp only [validateRule] at h
    rcases nv with nm | _ | _ | _ <;> try simp at h
    rcases hnb : isBlank nm <;> rw [hnb] at h <;> try simp at h
    rcases cv with _ | _ | f | _ <;> try simp at h
    rcases rv with rs | _ | _ | _ <;> try simp at h
    rcases hrb : isBlank rs <;> rw [hrb] at h <;> try simp at h
    rcases pv with _ | n | _ | _ <;> try simp at h
    rcases n with q | _ | _ | _ <;> try simp at h
    rcases hq : decide (q < 0) with _ | _
    · rw [if_neg (of_decide_eq_false hq)] at h
      cases h
      exact ⟨hnb, hrb, not_lt.mp (of_decide_eq_false hq)⟩
    · rw [if_pos (of_decide_eq_true hq)] at h
      simp at h

theorem validateAll_valid {ρ : Type} {l : List (RawRule ρ)}
    {vs : List (Rule ρ)} (h : validateAll l = .ok vs) :
    ∀ v ∈ vs, validRule v := by
  induction l generalizing vs with
  | nil =>
    simp only [validateAll] at h
    cases h
    simp
  | cons r rs ih =>
    simp only [validateAll] at h
    cases hr : validateRule r with
    | error e => rw [hr] at h; simp [Bind.bind, Except.bind] at h
    | ok v0 =>
      rw [hr] at h
      cases hrs : validateAll rs with
      | error e => rw [hrs] at h; simp [Bind.bind, Except.bind] at h
      | ok vs' =>
        rw [hrs] at h
        simp only [Bind.bind, Except.bind, pure, Except.pure, Except.ok.injEq] at h
        subst h
        intro v hv
        rcases List.mem_cons.mp hv with rfl | hv'
        · exact validateRule_valid hr
        · exact ih hrs v hv'

theorem mem_insertRule {ρ : Type} {x z : Rule ρ} {l : List (Rule ρ)} :
    z ∈ insertRule x l ↔ z = x ∨ z ∈ l := by
  induction l with
  | nil => simp [insertRule]
  | cons y ys ih =>
    by_cases hxy : x.priority ≤ y.priority
    · simp only [insertRule, if_pos hxy, List.mem_cons]
      try tauto
    · simp only [insertRule, if_neg hxy, List.mem_cons, ih]
      try tauto

theorem insertRule_sorted {ρ : Type} (x : Rule ρ) {l : List (Rule ρ)}
    (h : sortedByPriority l) : sortedByPriority (insertRule x l) := by
  induction l with
  | nil => simp [insertRule, sortedByPriority]
  | cons y ys ih =>
    rcases List.pairwise_cons.mp h with ⟨hy, hys⟩
    by_cases hxy : x.priority ≤ y.priority
    · simp only [insertRule, if_pos hxy]
      refine List.pairwise_cons.mpr ⟨?_, h⟩
      intro z hz
      rcases List.mem_cons.mp hz with rfl | hz'
      · exact hxy
      · exact le_trans hxy (hy z hz')
    · simp only [insertRule, if_neg hxy]
      refine List.pairwise_cons.mpr ⟨?_, ih hys⟩
      intro z hz
      rcases mem_insertRule.mp hz with rfl | hz'
      · exact le_of_not_le hxy
      · exact hy z hz'

theorem sortRules_sorted {ρ : Type} (l : List (Rule ρ)) :
    sortedByPriority (sortRules l) := by
  induction l with
  | nil => simp [sortRules, sortedByPriority]
  | cons x xs ih => exact insertRule_sorted x ih

theorem mem_sortRules {ρ : Type} {z : Rule ρ} {l : List (Rule ρ)} :
    z ∈ sortRules l ↔ z ∈ l := by
  induction l with
  | nil => simp [sortRules]
  | cons x xs ih =>
    simp only [sortRules, mem_insertRule, ih, List.mem_cons]
    try tauto

theorem filter_insertRule {ρ : Type} (p : ℚ) (x : Rule ρ) (l : List (Rule ρ)) :
    (insertRule x l).filter (fun r => decide (r.priority = p)) =
      if x.priority = p then
        x :: l.filter (fun r => decide (r.priority = p))
      else l.filter (fun r => decide (r.priority = p)) := by
  induction l with
  | nil =>
    by_cases hx : x.priority = p <;> simp [insertRule, List.filter, hx]
  | cons y ys ih =>
    by_cases hxy : x.priority ≤ y.priority
    · simp only [insertRule, if_pos hxy, List.filter_cons]
      by_cases hx : x.priority = p <;> by_cases hy : y.priority = p <;>
        simp [hx, hy]
    · have hyx : y.priority < x.priority := lt_of_not_le hxy
      simp only [insertRule, if_neg hxy, List.filter_cons, ih]
      by_cases hx : x.priority = p
      · have hy : ¬ y.priority = p := fun hyp => absurd (hyp.trans hx.symm) (ne_of_lt hyx)
        simp [hx, hy]
      · by_cases hy : y.priority = p <;> simp [hx, hy]

theorem sortRules_stable {ρ : Type} (p : ℚ) (l : List (Rule ρ)) :
    (sortRules l).filter (fun r => decide (r.priority = p)) =
      l.filter (fun r => decide (r.priority = p)) := by
  induction l with
  | nil => rfl
  | cons x xs ih =>
    simp only [sortRules, filter_insertRule, ih, List.filter_cons]
    by_cases hx : x.priority = p <;> simp [hx]

theorem sortRules_min_prepend {ρ : Type} {x : Rule ρ} {l : List (Rule ρ)}
    (h : ∀ r ∈ l, x.priority < r.priority) :
    sortRules (l ++ [x]) = x :: sortRules l := by
  induction l with
  | nil => rfl
  | cons y ys ih =>
    have hyx : ¬ y.priority ≤ x.priority :=
      not_le.mpr (h y (List.mem_cons_self y ys))
    have ih' := ih (fun r hr => h r (List.mem_cons_of_mem y hr))
    show insertRule y (sortRules (ys ++ [x])) = x :: insertRule y (sortRules ys)
    rw [ih']
    simp only [insertRule, if_neg hyx]

theorem evalRules_first_match {ρ : Type} (record : ρ) (pre post : List (Rule ρ))
    (r : Rule ρ) (hpre : ∀ r' ∈ pre, r'.condition record = .ok false)
    (hr : r.condition record = .ok true) :
    evalRules record (pre ++ r :: post) = .ok r.result := by
  induction pre with
  | nil => simp [evalRules, hr]
  | cons q qs ih =>
    have hq := hpre q (List.mem_cons_self q qs)
    simp only [List.cons_append, evalRules, hq]
    exact ih (fun r' hr' => hpre r' (List.mem_cons_of_mem q hr'))

theorem evalRules_first_throw {ρ : Type} (record : ρ) (pre post : List (Rule ρ))
    (r : Rule ρ) (msg : String)
    (hpre : ∀ r' ∈ pre, r'.condition record = .ok false)
    (hr : r.condition record = .error msg) :
    evalRules record (pre ++ r :: post) =
      .error (.ruleExecutionError
        ("Error evaluating rule \"" ++ r.name ++ "\": " ++ msg)) := by
  induction pre with
  | nil => simp [evalRules, hr]
  | cons q qs ih =>
    have hq := hpre q (List.mem_cons_self q qs)
    simp only [List.cons_append, evalRules, hq]
    exact ih (fun r' hr' => hpre r' (List.mem_cons_of_mem q hr'))

theorem evalRules_noMatch_iff {ρ : Type} (record : ρ) (rules : List (Rule ρ))
    (h : ∀ r ∈ rules, ∃ b, r.condition record = .ok b) :
    evalRules record rules =
        .error (.noMatchError "No matching rule found for package data") ↔
      ∀ r ∈ rules, r.condition record = .ok false := by
  induction rules with
  | nil => simp [evalRules]
  | cons r rs ih =>
    obtain ⟨b, hb⟩ := h r (List.mem_cons_self r rs)
    have hrs := fun r' hr' => h r' (List.mem_cons_of_mem r hr')
    cases b with
    | false =>
      simp only [evalRules, hb, if_neg Bool.false_ne_true, ih hrs,
        List.forall_mem_cons]
      tauto
    | true =>
      constructor
      · intro hcontra
        simp [evalRules, hb] at hcontra
      · intro hall
        exact absurd (hall r (List.mem_cons_self r rs)) (by simp [hb])

theorem filter_eq_of_length_eq {α : Type} (p : α → Bool) (l : List α)
    (h : (l.filter p).length = l.length) : l.filter p = l := by
  induction l with
  | nil => rfl
  | cons x xs ih =>
    cases hx : p x with
    | true =>
      simp only [List.filter_cons, hx, if_pos, List.length_cons] at h ⊢
      have hlen : (xs.filter p).length = xs.length := by omega
      rw [ih hlen]
    | false =>
      exfalso
      simp [List.filter_cons, hx] at h
      have hle := List.length_filter_le p xs
      omega

/-- C1: for every width, height, length and mass, a `RuleEngine` constructed
from the default `CLASSIFICATION_RULES`, evaluated on the record carrying
`bulky = isBulky(width, height, length)` and `heavy = isHeavy(mass)`,
returns the same label as `sort(width, height, length, mass)`. -/
theorem c1_default_engine_agrees_with_sort :
    ∃ e : RuleEngine PackageData,
      RuleEngine.construct (.arr classificationRules) = .ok e ∧
      ∀ w h l m : ℚ,
        (e.evaluate (.obj ⟨w, h, l, m, isBulky w h l, isHeavy m⟩)).fst =
          .ok (sort w h l m) := by
  refine ⟨defaultEngine, rfl, ?_⟩
  intro w h l m
  cases hb : isBulky w h l <;> cases hh : isHeavy m <;>
    simp [RuleEngine.evaluate, defaultEngine, evalRules, rejectedRule,
      specialRule, standardRule, sort, hb, hh]

/-- C2: `sort` returns `REJECTED` when `isBulky` and `isHeavy` are both
true, `SPECIAL` when exactly one of them is true, `STANDARD` when neither
is; and `isHeavy(mass)` is true exactly when `mass >= 20`. -/
theorem c2_sort_decision_matrix (w h l m : ℚ) :
    isHeavy m = decide (20 ≤ m) ∧
    (isBulky w h l = true → isHeavy m = true → sort w h l m = REJECTED) ∧
    ((isBulky w h l = true ∧ isHeavy m = false) ∨
      (isBulky w h l = false ∧ isHeavy m = true) → sort w h l m = SPECIAL) ∧
    (isBulky w h l = false → isHeavy m = false → sort w h l m = STANDARD) := by
  refine ⟨rfl, ?_, ?_, ?_⟩
  · intro hb hh
    simp [sort, hb, hh]
  · rintro (⟨hb, hh⟩ | ⟨hb, hh⟩) <;> simp [sort, hb, hh]
  · intro hb hh
    simp [sort, hb, hh]

/-- Witness for C2 at the four corners of the decision matrix. -/
theorem c2_sort_decision_matrix_witness :
    sort 200 1 1 25 = REJECTED ∧ sort 200 1 1 10 = SPECIAL ∧
    sort 1 1 1 25 = SPECIAL ∧ sort 1 1 1 10 = STANDARD :=
  ⟨(c2_sort_decision_matrix 200 1 1 25).2.1 (by decide) (by decide),
   (c2_sort_decision_matrix 200 1 1 10).2.2.1 (Or.inl ⟨by decide, by decide⟩),
   (c2_sort_decision_matrix 1 1 1 25).2.2.1 (Or.inr
      ⟨by norm_num [isBulky, DIMENSION_THRESHOLD, VOLUME_THRESHOLD], by decide⟩),
   (c2_sort_decision_matrix 1 1 1 10).2.2.2
      (by norm_num [isBulky, DIMENSION_THRESHOLD, VOLUME_THRESHOLD]) (by decide)⟩

/-- C3: for non-negative dimensions, `isBulky` is true exactly when some
dimension reaches 150 or the volume reaches 1,000,000; the dimension-first
short-circuit does not change the result. -/
theorem c3_isBulky_iff (w h l : ℚ) (_hw : 0 ≤ w) (_hh : 0 ≤ h) (_hl : 0 ≤ l) :
    isBulky w h l = true ↔
      (150 ≤ w ∨ 150 ≤ h ∨ 150 ≤ l ∨ 1000000 ≤ w * h * l) := by
  by_cases hd : (150 : ℚ) ≤ w ∨ (150 : ℚ) ≤ h ∨ (150 : ℚ) ≤ l
  · simp only [isBulky, DIMENSION_THRESHOLD, if_pos hd]
    tauto
  · push_neg at hd
    obtain ⟨h1, h2, h3⟩ := hd
    by_cases hv : (1000000 : ℚ) ≤ w * h * l <;>
      simp [isBulky, DIMENSION_THRESHOLD, VOLUME_THRESHOLD,
        not_le.mpr h1, not_le.mpr h2, not_le.mpr h3, hv]

/-- Witness for C3 at a boundary dimension and at a boundary volume. -/
theorem c3_isBulky_iff_witness :
    isBulky 150 0 0 = true ∧ isBulky 100 100 100 = true :=
  ⟨(c3_isBulky_iff 150 0 0 (by decide) (by decide) (by decide)).mpr
      (Or.inl (by decide)),
   (c3_isBulky_iff 100 100 100 (by decide) (by decide) (by decide)).mpr
      (Or.inr (Or.inr (Or.inr (by norm_num))))⟩

/-- C4: `evaluate` scans the stored rules in order and returns the result of
the first rule whose condition holds, independently of every rule after it
(the universally quantified `post` expresses that no later condition is
invoked); a successful construction stores the rules sorted by ascending
priority and stably (rules of each priority keep their original relative
order); in particular, of two equal-priority always-true rules the one
earlier in the constructor's array wins. -/
theorem c4_first_match_in_stable_priority_order :
    (∀ (ρ : Type) (e : RuleEngine ρ) (record : ρ) (pre post : List (Rule ρ))
        (r : Rule ρ),
        e.rules = pre ++ r :: post →
        (∀ r' ∈ pre, r'.condition record = .ok false) →
        r.condition record = .ok true →
        (e.evaluate (.obj record)).fst = .ok r.result) ∧
    (∀ (ρ : Type) (l : List (RawRule ρ)) (vs : List (Rule ρ))
        (e : RuleEngine ρ),
        validateAll l = .ok vs →
        RuleEngine.construct (.arr l) = .ok e →
        sortedByPriority e.rules ∧
        ∀ p : ℚ, e.rules.filter (fun r => decide (r.priority = p)) =
          vs.filter (fun r => decide (r.priority = p))) ∧
    (RuleEngine.construct (.arr [tieRuleARaw, tieRuleBRaw])).map
        (fun e => (e.evaluate (.obj pdStandard)).fst) = .ok (.ok "FIRST") := by
  refine ⟨?_, ?_, rfl⟩
  · intro ρ e record pre post r hrules hpre hr
    show evalRules record e.rules = .ok r.result
    rw [hrules]
    exact evalRules_first_match record pre post r hpre hr
  · intro ρ l vs e hva hc
    have hne : l.isEmpty = false := by
      cases l with
      | nil => simp [RuleEngine.construct] at hc
      | cons a as => rfl
    simp only [RuleEngine.construct, hne, Bool.false_eq_true, if_false,
      hva, Bind.bind, Except.bind, pure, Except.pure, Except.ok.injEq] at hc
    subst hc
    exact ⟨sortRules_sorted vs, fun p => sortRules_stable p vs⟩

/-- Witness for C4: a one-rule engine returns the matching rule's result,
and the default construction is sorted and stable. -/
theorem c4_first_match_in_stable_priority_order_witness :
    ((⟨[standardRule]⟩ : RuleEngine PackageData).evaluate
        (.obj pdStandard)).fst = .ok STANDARD ∧
    (sortedByPriority defaultEngine.rules ∧
      ∀ p : ℚ, defaultEngine.rules.filter (fun r => decide (r.priority = p)) =
        [rejectedRule, specialRule, standardRule].filter
          (fun r => decide (r.priority = p))) :=
  ⟨c4_first_match_in_stable_priority_order.1 PackageData ⟨[standardRule]⟩
      pdStandard [] [] standardRule rfl (by simp) rfl,
   c4_first_match_in_stable_priority_order.2.1 PackageData classificationRules
      [rejectedRule, specialRule, standardRule] defaultEngine rfl rfl⟩

/-- C6: if the conditions before a rule return `false` and that rule's
condition throws with message `msg`, then `evaluate` fails with the
`RuleExecutionError` naming the rule and carrying `msg`, independently of
every rule after it (no later condition is invoked). -/
theorem c6_condition_throw_aborts (ρ : Type) (e : RuleEngine ρ) (record : ρ)
    (pre post : List (Rule ρ)) (r : Rule ρ) (msg : String)
    (hrules : e.rules = pre ++ r :: post)
    (hpre : ∀ r' ∈ pre, r'.condition record = .ok false)
    (hr : r.condition record = .error msg) :
    (e.evaluate (.obj record)).fst =
      .error (.ruleExecutionError
        ("Error evaluating rule \"" ++ r.name ++ "\": " ++ msg)) := by
  show evalRules record e.rules = _
  rw [hrules]
  exact evalRules_first_throw record pre post r msg hpre hr

/-- Witness for C6: a throwing condition surfaces as the wrapped error. -/
theorem c6_condition_throw_aborts_witness :
    ((⟨[errRule]⟩ : RuleEngine PackageData).evaluate (.obj pdStandard)).fst =
      .error (.ruleExecutionError
        "Error evaluating rule \"error-rule\": Condition error") :=
  c6_condition_throw_aborts PackageData ⟨[errRule]⟩ pdStandard [] [] errRule
    "Condition error" rfl (by simp) rfl

/-- C7: when no stored condition throws on the record, `evaluate` fails
with the `NoMatchError` exactly when every stored rule's condition returns
`false` on the record. -/
theorem c7_noMatch_iff_all_false (ρ : Type) (e : RuleEngine ρ) (record : ρ)
    (h : ∀ r ∈ e.rules, ∃ b, r.condition record = .ok b) :
    (e.evaluate (.obj record)).fst =
        .error (.noMatchError "No matching rule found for package data") ↔
      ∀ r ∈ e.rules, r.condition record = .ok false :=
  evalRules_noMatch_iff record e.rules h

/-- Witness for C7: an engine whose single rule never matches. -/
theorem c7_noMatch_iff_all_false_witness :
    ((⟨[neverRule]⟩ : RuleEngine PackageData).evaluate (.obj pdStandard)).fst =
      .error (.noMatchError "No matching rule found for package data") :=
  (c7_noMatch_iff_all_false PackageData ⟨[neverRule]⟩ pdStandard
      (by intro r hr; rw [List.mem_singleton] at hr; subst hr
          exact ⟨false, rfl⟩)).mpr
    (by intro r hr; rw [List.mem_singleton] at hr; subst hr; rfl)

/-- C8: for a rule that passes validation, `addRule` fails with the
`ConfigError` naming the rule exactly when a stored rule already has its
name (leaving the state unchanged); otherwise it succeeds, the stored list
becomes the stable re-sort of the old list with the rule appended, the
result is sorted by priority, and a priority-0 rule added to an engine
whose rules all have positive priority is evaluated first. -/
theorem c8_addRule_duplicate_or_insert (ρ : Type) (e : RuleEngine ρ)
    (raw : RawRule ρ) (v : Rule ρ) (hv : validateRule raw = .ok v) :
    ((∃ r ∈ e.rules, r.name = v.name) →
      (e.addRule raw).fst =
        .error (.configError
          ("Rule with name \"" ++ v.name ++ "\" already exists")) ∧
      (e.addRule raw).snd = e) ∧
    ((∀ r ∈ e.rules, r.name ≠ v.name) →
      (e.addRule raw).fst = .ok () ∧
      (e.addRule raw).snd.rules = sortRules (e.rules ++ [v]) ∧
      sortedByPriority (e.addRule raw).snd.rules ∧
      ∀ record : ρ, (∀ r ∈ e.rules, 0 < r.priority) → v.priority = 0 →
        v.condition record = .ok true →
        ((e.addRule raw).snd.evaluate (.obj record)).fst = .ok v.result) := by
  have hdup : (e.rules.any (fun r => r.name == v.name) = true) ↔
      ∃ r ∈ e.rules, r.name = v.name := by
    simp [List.any_eq_true]
  constructor
  · intro hex
    have hany : e.rules.any (fun r => r.name == v.name) = true := hdup.mpr hex
    constructor <;> simp [RuleEngine.addRule, hv, hany]
  · intro hnone
    have hany : ¬ (e.rules.any (fun r => r.name == v.name) = true) := by
      rw [hdup]
      rintro ⟨r, hr, hname⟩
      exact hnone r hr hname
    have hred : e.addRule raw = (.ok (), ⟨sortRules (e.rules ++ [v])⟩) := by
      simp [RuleEngine.addRule, hv, hany]
    refine ⟨by rw [hred], by rw [hred], ?_, ?_⟩
    · rw [hred]
      exact sortRules_sorted _
    · intro record hpos hv0 hcond
      have hmin : ∀ r ∈ e.rules, v.priority < r.priority := by
        intro r hr
        rw [hv0]
        exact hpos r hr
      rw [hred]
      show evalRules record (sortRules (e.rules ++ [v])) = .ok v.result
      rw [sortRules_min_prepend hmin]
      simp [evalRules, hcond]

/-- Witness for C8: adding a rule named like the stored `rejected-packages`
fails with the duplicate-name error; adding the fresh priority-0 rule
`express-packages` makes it the first one evaluated. -/
theorem c8_addRule_duplicate_or_insert_witness :
    (defaultEngine.addRule dupRejectRaw).fst =
      .error (.configError
        "Rule with name \"rejected-packages\" already exists") ∧
    ((defaultEngine.addRule expressRaw).snd.evaluate (.obj pdStandard)).fst =
      .ok "EXPRESS" := by
  constructor
  · exact ((c8_addRule_duplicate_or_insert PackageData defaultEngine
      dupRejectRaw _ rfl).1
        ⟨rejectedRule, by simp [defaultEngine], rfl⟩).1
  · refine ((c8_addRule_duplicate_or_insert PackageData defaultEngine
      expressRaw _ rfl).2 ?_).2.2.2 pdStandard ?_ rfl rfl
    · intro r hr
      simp only [defaultEngine, List.mem_cons, List.not_mem_nil,
        or_false] at hr
      rcases hr with rfl | rfl | rfl <;> decide
    · intro r hr
      simp only [defaultEngine, List.mem_cons, List.not_mem_nil,
        or_false] at hr
      rcases hr with rfl | rfl | rfl <;> decide

/-- C9: `evaluate` leaves the stored rule list unchanged on every input,
whether it returns a label or fails. -/
theorem c9_evaluate_is_readonly (ρ : Type) (e : RuleEngine ρ)
    (input : JSRecord ρ) : (e.evaluate input).snd = e := by
  cases input <;> rfl

/-- C10: a failing `addRule` (invalid rule or duplicate name) and a failing
`removeRule` (invalid name or name not found) leave the engine state
observably identical to the state before the call. -/
theorem c10_failed_mutation_preserves_state (ρ : Type) (e : RuleEngine ρ) :
    (∀ (raw : RawRule ρ) (err : EngineError),
        (e.addRule raw).fst = .error err → (e.addRule raw).snd = e) ∧
    (∀ (nm : JVal ρ) (err : EngineError),
        (e.removeRule nm).fst = .error err → (e.removeRule nm).snd = e) := by
  obtain ⟨rules⟩ := e
  constructor
  · intro raw err herr
    cases hv : validateRule raw with
    | error e' => simp [RuleEngine.addRule, hv]
    | ok v =>
      cases hany : rules.any (fun r => r.name == v.name) with
      | true => simp [RuleEngine.addRule, hv, hany]
      | false =>
        exfalso
        simp [RuleEngine.addRule, hv, hany] at herr
  · intro nm err herr
    cases nm with
    | vStr s =>
      cases hb : isBlank s with
      | true => simp [RuleEngine.removeRule, hb]
      | false =>
        by_cases hlen :
            (rules.filter (fun r => r.name != s)).length = rules.length
        · have heq := filter_eq_of_length_eq (fun r => r.name != s) rules hlen
          simp [RuleEngine.removeRule, hb, hlen, heq]
        · exfalso
          simp [RuleEngine.removeRule, hb, hlen] at herr
    | vNum n => simp [RuleEngine.removeRule]
    | vFun f => simp [RuleEngine.removeRule]
    | vOther => simp [RuleEngine.removeRule]

/-- Witness for C10: a rejected rule object and a not-found name leave the
default engine unchanged. -/
theorem c10_failed_mutation_preserves_state_witness :
    (defaultEngine.addRule RawRule.notObj).snd = defaultEngine ∧
    (defaultEngine.removeRule (.vStr "non-existent")).snd = defaultEngine :=
  ⟨(c10_failed_mutation_preserves_state PackageData defaultEngine).1
      RawRule.notObj (.configError "Rule must be an object") rfl,
   (c10_failed_mutation_preserves_state PackageData defaultEngine).2
      (.vStr "non-existent")
      (.configError "Rule with name \"non-existent\" not found") rfl⟩

/-- Counterexample to C5: `removeRule` may delete the last rule, so an
observable engine state with zero rules is reachable; and the constructor
performs no duplicate-name check, so a reachable state holds two rules both
named `test`. -/
theorem c5_engine_invariant_counterexample :
    Reachable emptiedEngine ∧ emptiedEngine.rules = [] ∧
    Reachable dupEngine ∧ dupEngine.rules.map Rule.name = ["test", "test"] := by
  refine ⟨?_, rfl, ?_, rfl⟩
  · exact Reachable.removed singletonEngine (.vStr "only-rule")
      (Reachable.constructed (.arr [onlyRuleRaw]) singletonEngine rfl) rfl
  · exact Reachable.constructed (.arr [dupARaw, dupBRaw]) dupEngine rfl

/-- C5 as amended: every reachable engine state holds only rules that
passed validation (non-blank name and result, non-negative priority), in a
list sorted ascending by priority (with stable insertion-order ties, by the
stability of `sortRules`); the state may hold zero rules and duplicate
names are not excluded. -/
theorem c5_engine_invariant_amended (ρ : Type) (e : RuleEngine ρ)
    (h : Reachable e) :
    (∀ r ∈ e.rules, validRule r) ∧ sortedByPriority e.rules := by
  induction h with
  | constructed input e0 hc =>
    cases input with
    | notArray => simp [RuleEngine.construct] at hc
    | arr l =>
      cases hl : l.isEmpty with
      | true => simp [RuleEngine.construct, hl] at hc
      | false =>
        cases hva : validateAll l with
        | error err =>
          simp [RuleEngine.construct, hl, hva, Bind.bind, Except.bind] at hc
        | ok vs =>
          simp only [RuleEngine.construct, hl, Bool.false_eq_true, if_false,
            hva, Bind.bind, Except.bind, pure, Except.pure,
            Except.ok.injEq] at hc
          subst hc
          refine ⟨?_, sortRules_sorted vs⟩
          intro r hr
          exact validateAll_valid hva r (mem_sortRules.mp hr)
  | added e0 raw h1 h2 ih =>
    cases hv : validateRule raw with
    | error err =>
      exfalso
      simp [RuleEngine.addRule, hv] at h2
    | ok v =>
      cases hany : e0.rules.any (fun r => r.name == v.name) with
      | true =>
        exfalso
        simp [RuleEngine.addRule, hv, hany] at h2
      | false =>
        have hred : (e0.addRule raw).snd = ⟨sortRules (e0.rules ++ [v])⟩ := by
          simp [RuleEngine.addRule, hv, hany]
        rw [hred]
        refine ⟨?_, sortRules_sorted _⟩
        intro r hr
        rcases List.mem_append.mp (mem_sortRules.mp hr) with hr' | hr'
        · exact ih.1 r hr'
        · rw [List.mem_singleton] at hr'
          subst hr'
          exact validateRule_valid hv
  | removed e0 nm h1 h2 ih =>
    cases nm with
    | vStr s =>
      cases hb : isBlank s with
      | true =>
        exfalso
        simp [RuleEngine.removeRule, hb] at h2
      | false =>
        by_cases hlen :
            (e0.rules.filter (fun r => r.name != s)).length = e0.rules.length
        · exfalso
          simp [RuleEngine.removeRule, hb, hlen] at h2
        · have hred : (e0.removeRule (.vStr s)).snd =
              ⟨e0.rules.filter (fun r => r.name != s)⟩ := by
            simp [RuleEngine.removeRule, hb, hlen]
          rw [hred]
          refine ⟨?_, ?_⟩
          · intro r hr
            exact ih.1 r (List.mem_of_mem_filter hr)
          · exact List.Pairwise.sublist (List.filter_sublist _) ih.2
    | vNum n =>
      exfalso
      simp [RuleEngine.removeRule] at h2
    | vFun f =>
      exfalso
      simp [RuleEngine.removeRule] at h2
    | vOther =>
      exfalso
      simp [RuleEngine.removeRule] at h2

/-- Witness for the amended C5 at the freshly constructed default engine. -/
theorem c5_engine_invariant_amended_witness :
    (∀ r ∈ defaultEngine.rules, validRule r) ∧
      sortedByPriority defaultEngine.rules :=
  c5_engine_invariant_amended PackageData defaultEngine
    (Reachable.constructed (.arr classificationRules) defaultEngine rfl)
